import Mathlib

/-!
Shallow embedding of `src/convert.py` (uzideath/mkv-converter), an interactive
GPU-accelerated MKV→MP4 converter that probes the input's duration with
ffprobe, runs ffmpeg as a subprocess, parses `time=` tokens from its stderr
and renders a progress bar.

Modelling conventions:
* Python strings are `List Char` (`Str`); only ASCII data flows through the
  program's string operations.
* Python floats are exact rationals `ℚ` (the spec's arithmetic statements are
  about exact decimal values).
* Side effects (terminal writes) are dropped; the decisions taken and the
  data produced (reports, render calls, exit statuses) are modelled
  explicitly.
* A Python exception escaping a function is an `Except.error`.
-/

namespace Convert

/-- Strings of the Python program, modelled as lists of characters. -/
abbrev Str := List Char

/-- Numeric value of a run of ASCII digits, most significant first: the value
Python's `int`/`float` parsing assigns to the digit run. -/
def digitsToNat (s : Str) : ℕ :=
  s.foldl (fun acc c => 10 * acc + (c.toNat - 48)) 0

/-- Worker for `pySplit`: `acc` holds the current field reversed. -/
def splitOnAux (sep : Char) : Str → Str → List Str
  | [], acc => [acc.reverse]
  | c :: cs, acc =>
    if c = sep then acc.reverse :: splitOnAux sep cs []
    else splitOnAux sep cs (c :: acc)

/-- Python `str.split(sep)` for a one-character separator: splits at every
occurrence, keeping empty fields (`"".split(":") == [""]`). -/
def pySplit (sep : Char) (s : Str) : List Str := splitOnAux sep s []

/-- Python `int(s)` on the strings this program feeds it: a bare run of ASCII
digits.  `none` models the `ValueError` raised on malformed input.  (Full
Python `int` also accepts signs and surrounding whitespace; the timecode
segments handled here are bare digit runs, for which this model is exact.) -/
def pyInt (s : Str) : Option ℕ :=
  if s ≠ [] ∧ s.all Char.isDigit then some (digitsToNat s) else none

/-- Python `float("0." + millis)` as the source uses it on the fraction part
of a timecode: the digits after the decimal point scaled by `10 ^ length`.
`float("0.")` is `0.0`, so an empty fraction yields `0`.  `none` models the
`ValueError` on non-digit input (exotic float syntax such as exponents never
reaches this call site: the fraction comes from a `\d+` regex group or from a
string containing no further `.`). -/
def pyFrac (millis : Str) : Option ℚ :=
  if millis.all Char.isDigit then
    some ((digitsToNat millis : ℚ) / 10 ^ millis.length)
  else none

/-- `seconds_from_timecode` (src/convert.py:46-61): split on `:` into exactly
three fields `h`, `m`, `s`; when `s` contains a `.`, split it into seconds and
fraction; return `int(h)*3600 + int(m)*60 + int(secs) + millis`.  `none`
models the exceptions Python raises on a contract violation (wrong field
count, a second dot, non-numeric component). -/
def seconds_from_timecode (time_str : Str) : Option ℚ :=
  match pySplit ':' time_str with
  | [h, m, s] =>
    if '.' ∈ s then
      match pySplit '.' s with
      | [secs, millis] =>
        match pyInt h, pyInt m, pyInt secs, pyFrac millis with
        | some hv, some mv, some sv, some fv =>
          some ((hv : ℚ) * 3600 + (mv : ℚ) * 60 + (sv : ℚ) + fv)
        | _, _, _, _ => none
      | _ => none
    else
      match pyInt h, pyInt m, pyInt s with
      | some hv, some mv, some sv =>
        some ((hv : ℚ) * 3600 + (mv : ℚ) * 60 + (sv : ℚ) + 0)
      | _, _, _ => none
  | _ => none

theorem splitOnAux_no_sep (sep : Char) (H : Str) :
    ∀ acc : Str, sep ∉ H → splitOnAux sep H acc = [acc.reverse ++ H] := by
  induction H with
  | nil => intro acc _; simp [splitOnAux]
  | cons c cs ih =>
    intro acc h
    have hc : ¬ c = sep := fun e => h (by rw [← e]; exact List.mem_cons_self c cs)
    have hrest : sep ∉ cs := fun hm => h (List.mem_cons_of_mem c hm)
    simp only [splitOnAux, if_neg hc, ih (c :: acc) hrest]
    simp

theorem splitOnAux_sep (sep : Char) (H rest : Str) :
    ∀ acc : Str, sep ∉ H →
      splitOnAux sep (H ++ sep :: rest) acc
        = (acc.reverse ++ H) :: splitOnAux sep rest [] := by
  induction H with
  | nil => intro acc _; simp [splitOnAux]
  | cons c cs ih =>
    intro acc h
    have hc : ¬ c = sep := fun e => h (by rw [← e]; exact List.mem_cons_self c cs)
    have hrest : sep ∉ cs := fun hm => h (List.mem_cons_of_mem c hm)
    simp only [List.cons_append, splitOnAux, if_neg hc, List.append_eq]
    rw [ih (c :: acc) hrest]
    simp

/-- A character whose `isDigit` test fails is not an element of an all-digit
string. -/
theorem not_mem_of_all_digit {H : Str} (h : H.all Char.isDigit = true) {c : Char}
    (hc : c.isDigit = false) : c ∉ H := by
  intro hm
  have := List.all_eq_true.mp h _ hm
  rw [hc] at this
  exact Bool.false_ne_true this

theorem pySplit_three (H M S : Str) (hH : ':' ∉ H) (hM : ':' ∉ M) (hS : ':' ∉ S) :
    pySplit ':' (H ++ ':' :: (M ++ ':' :: S)) = [H, M, S] := by
  unfold pySplit
  rw [splitOnAux_sep ':' H (M ++ ':' :: S) [] hH,
      splitOnAux_sep ':' M S [] hM,
      splitOnAux_no_sep ':' S [] hS]
  simp

theorem pySplit_two (A B : Str) (sep : Char) (hA : sep ∉ A) (hB : sep ∉ B) :
    pySplit sep (A ++ sep :: B) = [A, B] := by
  unfold pySplit
  rw [splitOnAux_sep sep A B [] hA, splitOnAux_no_sep sep B [] hB]
  simp

theorem pyInt_digits {H : Str} (hne : H ≠ []) (hd : H.all Char.isDigit = true) :
    pyInt H = some (digitsToNat H) := by
  unfold pyInt
  rw [if_pos ⟨hne, hd⟩]

/-- Python 3 one-argument `round` on an exact rational input: round to the
nearest integer, ties to the even neighbour (`int(round(x))` in the source;
one-argument `round` already returns an integer). -/
def pyRound (q : ℚ) : ℤ :=
  if q - ⌊q⌋ < 1/2 then ⌊q⌋
  else if 1/2 < q - ⌊q⌋ then ⌊q⌋ + 1
  else if ⌊q⌋ % 2 = 0 then ⌊q⌋ else ⌊q⌋ + 1

/-- `bar_width = min(50, terminal_width - 20)` (src/convert.py:132). -/
def bar_width (terminal_width : ℤ) : ℤ := min 50 (terminal_width - 20)

/-- `progress = min(current_sec / total_duration, 1.0)` (src/convert.py:145). -/
def progress (current_sec total_duration : ℚ) : ℚ :=
  min (current_sec / total_duration) 1

/-- `filled_length = int(round(bar_width * progress))` (src/convert.py:146). -/
def filled_length (w : ℤ) (current_sec total_duration : ℚ) : ℤ :=
  pyRound ((w : ℚ) * progress current_sec total_duration)

/-- `percent = int(round(progress * 100))` (src/convert.py:148). -/
def percent (current_sec total_duration : ℚ) : ℤ :=
  pyRound (progress current_sec total_duration * 100)

/-- Python string repetition `c * n`: `n` copies when `n > 0`, empty for
`n ≤ 0`. -/
def pyRepeat (c : Char) (n : ℤ) : Str := List.replicate n.toNat c

/-- The bar text built at src/convert.py:147:
`"#" * filled_length + "-" * (bar_width - filled_length)`. -/
def bar (w : ℤ) (current_sec total_duration : ℚ) : Str :=
  pyRepeat '#' (filled_length w current_sec total_duration)
    ++ pyRepeat '-' (w - filled_length w current_sec total_duration)

/-- Modelled from the spec: the fraction obtained by first clamping the
elapsed value to `[0, total_duration]` and then dividing — the spec's
invariant "elapsed seconds used for rendering is clamped to
`[0, total_duration]` before computing a fraction". -/
def clampedFraction (e t : ℚ) : ℚ := min (max e 0) t / t

/-- `pyRound` is the identity on integers. -/
theorem pyRound_intCast (n : ℤ) : pyRound (n : ℚ) = n := by
  unfold pyRound
  rw [Int.floor_intCast]
  norm_num

theorem pyRound_le (q : ℚ) : (pyRound q : ℚ) ≤ q + 1/2 := by
  unfold pyRound
  have h1 : (⌊q⌋ : ℚ) ≤ q := Int.floor_le q
  have h2 : q < ⌊q⌋ + 1 := Int.lt_floor_add_one q
  split_ifs <;> push_cast <;> linarith

theorem le_pyRound (q : ℚ) : q - 1/2 ≤ (pyRound q : ℚ) := by
  unfold pyRound
  have h1 : (⌊q⌋ : ℚ) ≤ q := Int.floor_le q
  have h2 : q < ⌊q⌋ + 1 := Int.lt_floor_add_one q
  split_ifs <;> push_cast <;> linarith

theorem pyRound_nonneg {q : ℚ} (h : 0 ≤ q) : 0 ≤ pyRound q := by
  have hb := le_pyRound q
  have h1 : (-1 : ℚ) < (pyRound q : ℚ) := by linarith
  have h2 : (-1 : ℤ) < pyRound q := by exact_mod_cast h1
  omega

theorem pyRound_le_int {q : ℚ} {w : ℤ} (h : q ≤ (w : ℚ)) : pyRound q ≤ w := by
  have hb := pyRound_le q
  have h1 : (pyRound q : ℚ) < (w : ℚ) + 1 := by linarith
  have h2 : pyRound q < w + 1 := by exact_mod_cast h1
  omega

theorem progress_nonneg {e t : ℚ} (ht : 0 < t) (he : 0 ≤ e) :
    0 ≤ progress e t :=
  le_min (div_nonneg he ht.le) zero_le_one

theorem progress_le_one (e t : ℚ) : progress e t ≤ 1 := min_le_right _ _

theorem filled_length_bounds {e t : ℚ} {w : ℤ} (ht : 0 < t) (he : 0 ≤ e)
    (hw : 0 ≤ w) : 0 ≤ filled_length w e t ∧ filled_length w e t ≤ w := by
  have h0 : 0 ≤ progress e t := progress_nonneg ht he
  have h1 : progress e t ≤ 1 := progress_le_one e t
  have hw' : (0 : ℚ) ≤ (w : ℚ) := by exact_mod_cast hw
  refine ⟨pyRound_nonneg (mul_nonneg hw' h0), pyRound_le_int ?_⟩
  calc (w : ℚ) * progress e t ≤ (w : ℚ) * 1 := mul_le_mul_of_nonneg_left h1 hw'
  _ = (w : ℚ) := mul_one _

/-- C4 (amended) — for nonnegative elapsed `e`, total `t > 0` and bar width
`w ≥ 0`, the renderer computes fraction `min(e/t, 1)`, filled-bar-length
`round(w * fraction)` and percentage `round(fraction * 100)` (Python 3
`round`, ties to even), and the filled-bar-length lies within `[0, w]`.  The
claim's bound fails for negative elapsed values, which no call site
produces. -/
theorem draw_progress_formula (e t : ℚ) (w : ℤ)
    (ht : 0 < t) (he : 0 ≤ e) (hw : 0 ≤ w) :
    progress e t = min (e / t) 1 ∧
    filled_length w e t = pyRound ((w : ℚ) * min (e / t) 1) ∧
    percent e t = pyRound (min (e / t) 1 * 100) ∧
    0 ≤ filled_length w e t ∧ filled_length w e t ≤ w :=
  ⟨rfl, rfl, rfl, (filled_length_bounds ht he hw).1, (filled_length_bounds ht he hw).2⟩

/-- Witness for C4 (amended) at elapsed 30, total 120, width 50: the
hypotheses hold and the filled length (round of 12.5, ties to even: 12) lies
within `[0, 50]`. -/
theorem draw_progress_formula_witness :
    0 ≤ filled_length 50 30 120 ∧ filled_length 50 30 120 ≤ 50 :=
  ⟨(draw_progress_formula 30 120 50 (by norm_num) (by norm_num) (by norm_num)).2.2.2.1,
   (draw_progress_formula 30 120 50 (by norm_num) (by norm_num) (by norm_num)).2.2.2.2⟩

/-- C4 counterexample — the claim quantifies over all elapsed values, but at
elapsed `-50`, total `1`, width `50` the renderer computes filled-bar-length
`-2500`, outside `[0, 50]`. -/
theorem draw_progress_bound_counterexample :
    filled_length 50 (-50) 1 = -2500 ∧ ¬ 0 ≤ filled_length 50 (-50) 1 := by
  have h : filled_length 50 (-50) 1 = -2500 := by
    unfold filled_length progress
    rw [div_one, min_eq_left (by norm_num : (-50 : ℚ) ≤ 1),
      (by norm_num : ((50 : ℤ) : ℚ) * (-50) = ((-2500 : ℤ) : ℚ)), pyRound_intCast]
  exact ⟨h, by rw [h]; decide⟩

/-- C5 (amended) — the code clamps only the fraction's upper end (at 1.0);
for the nonnegative elapsed values every call site produces, this agrees with
clamping elapsed to `[0, total]` before dividing, and the rendered bar then
holds exactly `width` characters, never overflowing nor underflowing. -/
theorem progress_eq_clamped (e t : ℚ) (w : ℤ)
    (ht : 0 < t) (he : 0 ≤ e) (hw : 0 ≤ w) :
    progress e t = clampedFraction e t ∧ (bar w e t).length = w.toNat := by
  constructor
  · unfold progress clampedFraction
    rw [max_eq_left he, ← min_div_div_right ht.le e t, div_self ht.ne']
  · have hb := filled_length_bounds (e := e) (t := t) (w := w) ht he hw
    simp only [bar, pyRepeat, List.length_append, List.length_replicate]
    omega

/-- Witness for C5 (amended) at elapsed 240, total 120, width 50: the
fraction saturates at 1 in both forms and the bar holds exactly 50
characters. -/
theorem progress_eq_clamped_witness :
    progress 240 120 = clampedFraction 240 120 ∧ (bar 50 240 120).length = 50 :=
  progress_eq_clamped 240 120 50 (by norm_num) (by norm_num) (by norm_num)

/-- C5 counterexample — the renderer never clamps a negative elapsed value:
at elapsed `-1`, total `2`, the code's fraction is `-1/2` while the clamped
fraction is `0`, and with width `50` the rendered bar holds 75 characters
(underflowing past empty). -/
theorem clamp_counterexample :
    progress (-1) 2 ≠ clampedFraction (-1) 2 ∧ (bar 50 (-1) 2).length = 75 := by
  have h1 : progress (-1) 2 = -1/2 := by
    unfold progress
    rw [min_eq_left (by norm_num : (-1 : ℚ)/2 ≤ 1)]
  have h2 : clampedFraction (-1) 2 = 0 := by
    unfold clampedFraction
    rw [max_eq_right (by norm_num : (-1 : ℚ) ≤ 0),
      min_eq_left (by norm_num : (0 : ℚ) ≤ 2), zero_div]
  have hf : filled_length 50 (-1) 2 = -25 := by
    unfold filled_length progress
    rw [min_eq_left (by norm_num : (-1 : ℚ)/2 ≤ 1),
      (by norm_num : ((50 : ℤ) : ℚ) * (-1/2) = ((-25 : ℤ) : ℚ)), pyRound_intCast]
  constructor
  · rw [h1, h2]; norm_num
  · rw [bar, hf, pyRepeat, pyRepeat]
    simp [List.length_append, List.length_replicate]

/-- C6 counterexample — `bar_width = min(50, terminal_width - 20)` has no
lower floor: a terminal 10 columns wide yields bar width `-10`, below every
positive floor. -/
theorem bar_width_counterexample : bar_width 10 = -10 ∧ ¬ 0 < bar_width 10 := by
  decide

/-- C6 (amended) — the bar width is `min(50, terminal_width - 20)`: it is
clamped above at 50, but there is no lower floor; it is positive (within
`[1, 50]`) exactly when the terminal is at least 21 columns wide. -/
theorem bar_width_amended (tw : ℤ) :
    bar_width tw = min 50 (tw - 20) ∧ bar_width tw ≤ 50 ∧
    (21 ≤ tw → 1 ≤ bar_width tw) := by
  refine ⟨rfl, min_le_left _ _, fun h => ?_⟩
  unfold bar_width
  rw [min_def]
  split_ifs <;> omega

/-- Witness for C6 (amended) at an 80-column terminal: bar width 50, within
`[1, 50]`. -/
theorem bar_width_amended_witness : 1 ≤ bar_width 80 ∧ bar_width 80 ≤ 50 :=
  ⟨(bar_width_amended 80).2.2 (by norm_num), (bar_width_amended 80).2.1⟩

/-- C3 — For every valid timecode `H+:MM:SS` or `H+:MM:SS.fraction` (each
segment a nonempty run of ASCII digits), `seconds_from_timecode` returns
exactly `hours*3600 + minutes*60 + seconds + fraction`, where the fraction
digits `F` denote `F / 10 ^ |F|` regardless of digit count. -/
theorem seconds_from_timecode_correct (H M S F : Str)
    (hH : H ≠ [] ∧ H.all Char.isDigit = true)
    (hM : M ≠ [] ∧ M.all Char.isDigit = true)
    (hS : S ≠ [] ∧ S.all Char.isDigit = true)
    (hF : F ≠ [] ∧ F.all Char.isDigit = true) :
    seconds_from_timecode (H ++ ':' :: (M ++ ':' :: S))
      = some ((digitsToNat H : ℚ) * 3600 + (digitsToNat M : ℚ) * 60
          + (digitsToNat S : ℚ)) ∧
    seconds_from_timecode (H ++ ':' :: (M ++ ':' :: (S ++ '.' :: F)))
      = some ((digitsToNat H : ℚ) * 3600 + (digitsToNat M : ℚ) * 60
          + (digitsToNat S : ℚ) + (digitsToNat F : ℚ) / 10 ^ F.length) := by
  have hcolon : (':' : Char).isDigit = false := by decide
  have hdot : ('.' : Char).isDigit = false := by decide
  have hHc : ':' ∉ H := not_mem_of_all_digit hH.2 hcolon
  have hMc : ':' ∉ M := not_mem_of_all_digit hM.2 hcolon
  have hSc : ':' ∉ S := not_mem_of_all_digit hS.2 hcolon
  have hFc : ':' ∉ F := not_mem_of_all_digit hF.2 hcolon
  have hSd : '.' ∉ S := not_mem_of_all_digit hS.2 hdot
  have hFd : '.' ∉ F := not_mem_of_all_digit hF.2 hdot
  constructor
  · unfold seconds_from_timecode
    rw [pySplit_three H M S hHc hMc hSc]
    simp only [if_neg hSd,
      pyInt_digits hH.1 hH.2, pyInt_digits hM.1 hM.2, pyInt_digits hS.1 hS.2]
    norm_num
  · have hSFc : ':' ∉ S ++ '.' :: F := by
      intro hm
      rcases List.mem_append.mp hm with h1 | h1
      · exact hSc h1
      · rcases List.mem_cons.mp h1 with h2 | h2
        · exact absurd h2 (by decide)
        · exact hFc h2
    have hSFd : '.' ∈ S ++ '.' :: F := List.mem_append.mpr (Or.inr (List.mem_cons_self _ _))
    unfold seconds_from_timecode
    rw [pySplit_three H M (S ++ '.' :: F) hHc hMc hSFc]
    simp only [if_pos hSFd, pySplit_two S F '.' hSd hFd,
      pyInt_digits hH.1 hH.2, pyInt_digits hM.1 hM.2, pyInt_digits hS.1 hS.2,
      pyFrac, if_pos hF.2]

/-- Witness for C3 at the spec's own examples: `"00:01:23.45"` parses to
`83.45 = 1669/20` and `"02:00:00"` parses to `7200`. -/
theorem seconds_from_timecode_correct_witness :
    seconds_from_timecode ['0','0',':','0','1',':','2','3','.','4','5']
      = some (1669 / 20 : ℚ) ∧
    seconds_from_timecode ['0','2',':','0','0',':','0','0'] = some (7200 : ℚ) := by
  have h1 := (seconds_from_timecode_correct ['0','0'] ['0','1'] ['2','3'] ['4','5']
    ⟨by decide, by decide⟩ ⟨by decide, by decide⟩ ⟨by decide, by decide⟩
    ⟨by decide, by decide⟩).2
  have h2 := (seconds_from_timecode_correct ['0','2'] ['0','0'] ['0','0'] ['4','5']
    ⟨by decide, by decide⟩ ⟨by decide, by decide⟩ ⟨by decide, by decide⟩
    ⟨by decide, by decide⟩).1
  have e00 : digitsToNat ['0','0'] = 0 := by decide
  have e01 : digitsToNat ['0','1'] = 1 := by decide
  have e23 : digitsToNat ['2','3'] = 23 := by decide
  have e45 : digitsToNat ['4','5'] = 45 := by decide
  have e02 : digitsToNat ['0','2'] = 2 := by decide
  rw [e00, e01, e23, e45] at h1
  rw [e02, e00] at h2
  constructor
  · exact h1.trans (by norm_num)
  · exact h2.trans (by norm_num)

/-- Python `str.strip()`: drop leading and trailing whitespace (the ASCII
whitespace this program can see; Lean's `Char.isWhitespace` covers space,
tab, carriage return and newline). -/
def pyStrip (s : Str) : Str :=
  ((s.dropWhile Char.isWhitespace).reverse.dropWhile Char.isWhitespace).reverse

/-- Python `str.lower()` on the ASCII text this program compares. -/
def pyLower (s : Str) : Str := s.map Char.toLower

/-- Python `float(s)` on probe output: an unsigned decimal literal
(`digits`, `digits.digits`, `digits.`, `.digits`).  `none` models the
`ValueError` raised on non-numeric text such as ffprobe's `N/A` marker.
(Python `float` additionally accepts signs, exponents, `inf`/`nan` and
underscores; ffprobe's duration output is a bare unsigned decimal, so those
forms never occur here and are treated as non-numeric.) -/
def pyFloat (s : Str) : Option ℚ :=
  match pySplit '.' s with
  | [a] =>
    if a ≠ [] ∧ a.all Char.isDigit then some ((digitsToNat a : ℚ)) else none
  | [a, b] =>
    if (a ≠ [] ∨ b ≠ []) ∧ a.all Char.isDigit ∧ b.all Char.isDigit then
      some ((digitsToNat a : ℚ) + (digitsToNat b : ℚ) / 10 ^ b.length)
    else none
  | _ => none

/-- Outcome of the one `subprocess.run` call the prober makes: the probe
command's exit status and its captured standard output. -/
structure ProbeResult where
  exitCode : ℤ
  stdout : Str
deriving DecidableEq

/-- `get_video_duration` (src/convert.py:21-44): with `check=True`, a
non-zero probe exit raises `CalledProcessError`, which the handler catches
and turns into `None`; an empty stripped stdout is `None`; otherwise the
text goes to `float()`.  `Except.error` models the `ValueError` that
`float()` raises on malformed numeric text — no handler catches it (only
`CalledProcessError` is caught), so it escapes this boundary. -/
def get_video_duration (probe : ProbeResult) : Except Unit (Option ℚ) :=
  if probe.exitCode ≠ 0 then .ok none
  else if pyStrip probe.stdout = [] then .ok none
  else
    match pyFloat (pyStrip probe.stdout) with
    | some v => .ok (some v)
    | none => .error ()

/-- A single `draw_progress` invocation: the elapsed value passed and the
total duration in scope (the bar, percentage and spinner it writes follow
from `progress`, `filled_length`, `percent` and the spinner phase). -/
structure Render where
  elapsed : ℚ
  total : ℚ
deriving DecidableEq

/-- The orchestrator's mutable progress state: the spinner phase index and
the sequence of render calls made so far. -/
structure LoopState where
  spinner_index : ℕ
  renders : List Render
deriving DecidableEq

/-- `spinner_frames = ["|", "/", "-", "\\"]` (src/convert.py:135). -/
def spinner_frames : List Str := [['|'], ['/'], ['-'], ['\\']]

/-- `draw_progress` (src/convert.py:138-160) as a state transition: record
the render call and advance the spinner phase cyclically
(`(spinner_index + 1) % len(spinner_frames)`). -/
def draw_progress (total : ℚ) (st : LoopState) (current_sec : ℚ) : LoopState :=
  { spinner_index := (st.spinner_index + 1) % spinner_frames.length,
    renders := st.renders ++ [⟨current_sec, total⟩] }

/-- The longest run of ASCII digits at the front of `s`, with the rest: the
greedy `\d+` of the time pattern (`\d` also matches non-ASCII Unicode digits,
which never occur in ffmpeg stderr). -/
def spanDigits (s : Str) : Str × Str :=
  (s.takeWhile Char.isDigit, s.dropWhile Char.isDigit)

/-- Match `\d+:\d+:\d+(?:\.\d+)?` at the start of `s`, returning group 1 of
`time_pattern` (src/convert.py:125).  The optional fraction is taken exactly
when a dot followed by at least one digit is present. -/
def matchTimecode (s : Str) : Option Str :=
  let (d1, r1) := spanDigits s
  if d1 = [] then none else
  match r1 with
  | ':' :: r2 =>
    let (d2, r3) := spanDigits r2
    if d2 = [] then none else
    match r3 with
    | ':' :: r4 =>
      let (d3, r5) := spanDigits r4
      if d3 = [] then none else
      match r5 with
      | '.' :: r6 =>
        let (d4, _) := spanDigits r6
        if d4 = [] then some (d1 ++ ':' :: (d2 ++ ':' :: d3))
        else some (d1 ++ ':' :: (d2 ++ ':' :: (d3 ++ '.' :: d4)))
      | _ => some (d1 ++ ':' :: (d2 ++ ':' :: d3))
    | _ => none
  | _ => none

/-- `time_pattern.search(line)`: the leftmost occurrence of
`time=\d+:\d+:\d+(?:\.\d+)?` in the line, returning the captured timecode. -/
def searchTime : Str → Option Str
  | 't' :: 'i' :: 'm' :: 'e' :: '=' :: rest =>
    match matchTimecode rest with
    | some tc => some tc
    | none => searchTime ('i' :: 'm' :: 'e' :: '=' :: rest)
  | _ :: cs => searchTime cs
  | [] => none

/-- One iteration of the stderr-reading loop (src/convert.py:172-176) on one
line: when the time pattern matches, parse the token and call
`draw_progress`; otherwise the line is ignored — not logged, not buffered,
state untouched.  (A matched token is always three colon-separated digit runs
with an optional digit fraction, so `seconds_from_timecode` cannot fail on
it; its `none` branch is unreachable from a match.) -/
def processLine (total : ℚ) (st : LoopState) (line : Str) : LoopState :=
  match searchTime line with
  | none => st
  | some tok =>
    match seconds_from_timecode tok with
    | some current_sec => draw_progress total st current_sec
    | none => st

/-- The terminal report `run_ffmpeg_with_progress` prints last. -/
inductive Report where
  | durationUnknown
  | canceled
  | success
  | failure
deriving DecidableEq

/-- The environment one conversion run observes: the probe subprocess's
outcome, the lines ffmpeg writes to stderr, ffmpeg's exit code, and whether —
and after how many processed lines — a `KeyboardInterrupt` arrives during
the streaming loop (`none` = no interrupt). -/
structure Env where
  probe : ProbeResult
  stderrLines : List Str
  ffmpegExit : ℤ
  interruptAfter : Option ℕ
deriving DecidableEq

/-- What a conversion run did: how many encoder subprocesses it started, the
`draw_progress` calls it made, the report it printed, and the `sys.exit`
status it raised, if any (only the interrupt path calls `sys.exit(1)`; all
other paths return normally). -/
structure RunResult where
  encoderStarts : ℕ
  renders : List Render
  report : Report
  sysExit : Option ℤ
deriving DecidableEq

/-- `run_ffmpeg_with_progress` (src/convert.py:63-193): probe the duration —
an uncaught probe exception propagates; `if not total_duration or
total_duration <= 0` aborts with the duration-unknown report before any
`Popen`; otherwise start ffmpeg once, fold the reading loop over its stderr
lines (stopping where the interrupt strikes, which reports cancellation and
exits 1), then make the final `draw_progress(total_duration)` call and
report success or failure by the exit code.  No path retries. -/
def run_ffmpeg_with_progress (env : Env) : Except Unit RunResult :=
  match get_video_duration env.probe with
  | .error e => .error e
  | .ok none => .ok ⟨0, [], .durationUnknown, none⟩
  | .ok (some total_duration) =>
    if total_duration ≤ 0 then .ok ⟨0, [], .durationUnknown, none⟩
    else
      match env.interruptAfter with
      | some k =>
        let st := (env.stderrLines.take k).foldl (processLine total_duration) ⟨0, []⟩
        .ok ⟨1, st.renders, .canceled, some 1⟩
      | none =>
        let st := env.stderrLines.foldl (processLine total_duration) ⟨0, []⟩
        let final := draw_progress total_duration st total_duration
        .ok ⟨1, final.renders, if env.ffmpegExit = 0 then .success else .failure, none⟩

/-- How the whole process ends for a run that reaches the conversion step. -/
inductive ProgramEnd where
  | exited (status : ℤ)
  | uncaught
deriving DecidableEq

/-- The process's final status once both prompts are answered: `main`
(src/convert.py:229) calls `run_ffmpeg_with_progress`, then falls off its
end, so the interpreter exits 0 unless the run itself called `sys.exit` or
an exception escaped. -/
def programEnd (env : Env) : ProgramEnd :=
  match run_ffmpeg_with_progress env with
  | .error _ => .uncaught
  | .ok r =>
    match r.sysExit with
    | some n => .exited n
    | none => .exited 0

/-- Outcome of one prompt iteration of the interactive shell. -/
inductive PromptOutcome where
  | cancelExit (status : ℤ)
  | accepted (path : Str)
deriving DecidableEq

/-- The cancel keyword of both prompts. -/
def cancelToken : Str := ['c','a','n','c','e','l']

/-- The output-path prompt (src/convert.py:220-226): strip the entry; on the
case-insensitive cancel token print a message and `sys.exit(0)`; otherwise
`break` unconditionally — the entry is accepted with no further check. -/
def output_prompt (entry : Str) : PromptOutcome :=
  if pyLower (pyStrip entry) = cancelToken then .cancelExit 0
  else .accepted (pyStrip entry)

/-- C2 — the prober's boundary is not exception-free.  A non-zero probe exit
and an empty output both yield absence, but when the probe exits 0 with the
non-numeric output `N/A` (ffprobe's marker for an unknown duration),
`float("N/A")` raises `ValueError`, which the `except CalledProcessError`
handler does not catch: the exception escapes instead of the absence signal
the claim (and the function's own docstring) promises. -/
theorem get_video_duration_raises :
    get_video_duration ⟨0, ['N','/','A']⟩ = .error () ∧
    get_video_duration ⟨1, []⟩ = .ok none ∧
    get_video_duration ⟨0, []⟩ = .ok none :=
  ⟨rfl, rfl, rfl⟩

/-- C7 — if duration probing yields absence, the run reports
duration-unknown, makes no render call, raises no exit, and starts zero
encoder subprocesses. -/
theorem no_encoder_on_absent_duration (env : Env)
    (h : get_video_duration env.probe = .ok none) :
    run_ffmpeg_with_progress env
      = .ok ⟨0, [], Report.durationUnknown, none⟩ := by
  unfold run_ffmpeg_with_progress
  rw [h]

/-- Witness for C7: a probe that exits 1 yields absence and the run aborts
before any encoder start. -/
theorem no_encoder_on_absent_duration_witness :
    run_ffmpeg_with_progress ⟨⟨1, []⟩, [], 0, none⟩
      = .ok ⟨0, [], Report.durationUnknown, none⟩ :=
  no_encoder_on_absent_duration ⟨⟨1, []⟩, [], 0, none⟩ rfl

/-- C8 — a stderr line in which the time pattern finds no match leaves the
progress state exactly as it was: spinner phase, render list and render call
count unchanged; the line is recorded nowhere. -/
theorem ignore_unmatched_line (total : ℚ) (st : LoopState) (line : Str)
    (h : searchTime line = none) :
    processLine total st line = st ∧
    (processLine total st line).renders.length = st.renders.length := by
  unfold processLine
  rw [h]
  exact ⟨rfl, rfl⟩

/-- Witness for C8 on a typical non-progress ffmpeg stderr line. -/
theorem ignore_unmatched_line_witness :
    processLine 120 ⟨0, []⟩ ['f','p','s','=',' ','3','0',' ','q','=','1','8']
      = ⟨0, []⟩ :=
  (ignore_unmatched_line 120 ⟨0, []⟩
    ['f','p','s','=',' ','3','0',' ','q','=','1','8'] (by decide)).1

theorem renders_pos_total_foldl (d : ℚ) (hd : 0 < d) (lines : List Str) :
    ∀ st : LoopState, (∀ rd ∈ st.renders, 0 < rd.total) →
      ∀ rd ∈ (lines.foldl (processLine d) st).renders, 0 < rd.total := by
  induction lines with
  | nil => intro st h; exact h
  | cons l ls ih =>
    intro st h
    refine ih _ ?_
    intro rd hrd
    cases hs : searchTime l with
    | none =>
      simp only [processLine, hs] at hrd
      exact h rd hrd
    | some tok =>
      cases hp : seconds_from_timecode tok with
      | none =>
        simp only [processLine, hs, hp] at hrd
        exact h rd hrd
      | some cur =>
        simp only [processLine, hs, hp, draw_progress] at hrd
        simp only [List.mem_append, List.mem_singleton] at hrd
        rcases hrd with h1 | h1
        · exact h rd h1
        · rw [h1]; exact hd

/-- C10 — every `draw_progress` call of every run carries a strictly positive
total duration (the orchestrator aborts before `Popen` when the probed
duration is absent or non-positive), so the renderer's division
`current_sec / total_duration` never divides by zero. -/
theorem renderer_total_pos (env : Env) (r : RunResult)
    (h : run_ffmpeg_with_progress env = .ok r) :
    ∀ rd ∈ r.renders, 0 < rd.total ∧ rd.total ≠ 0 := by
  suffices hs : ∀ rd ∈ r.renders, 0 < rd.total by
    intro rd hrd
    exact ⟨hs rd hrd, (hs rd hrd).ne'⟩
  unfold run_ffmpeg_with_progress at h
  cases hg : get_video_duration env.probe with
  | error e => rw [hg] at h; simp at h
  | ok dur =>
    rw [hg] at h
    cases dur with
    | none =>
      simp only [Except.ok.injEq] at h
      rw [← h]
      intro rd hrd
      simp at hrd
    | some d =>
      simp only [] at h
      by_cases hle : d ≤ 0
      · rw [if_pos hle] at h
        simp only [Except.ok.injEq] at h
        rw [← h]
        intro rd hrd
        simp at hrd
      · rw [if_neg hle] at h
        have hd : 0 < d := not_le.mp hle
        cases hi : env.interruptAfter with
        | some k =>
          rw [hi] at h
          simp only [Except.ok.injEq] at h
          rw [← h]
          exact renders_pos_total_foldl d hd _ ⟨0, []⟩ (by intro rd hrd; simp at hrd)
        | none =>
          rw [hi] at h
          simp only [Except.ok.injEq] at h
          rw [← h]
          intro rd hrd
          unfold draw_progress at hrd
          simp only [List.mem_append, List.mem_singleton] at hrd
          rcases hrd with h1 | h1
          · exact renders_pos_total_foldl d hd _ ⟨0, []⟩
              (by intro rd hrd; simp at hrd) rd h1
          · rw [h1]; exact hd

/-- Shared evaluation: the probe of the counterexample scenarios exits 0 with
stdout `120`, which the prober parses to the duration `120.0`. -/
theorem probe120 : get_video_duration ⟨0, ['1','2','0']⟩ = .ok (some 120) := by
  have e1 : ((digitsToNat ['1','2','0'] : ℚ)) = 120 := by
    rw [show digitsToNat ['1','2','0'] = 120 from by decide]
    norm_num
  calc get_video_duration ⟨0, ['1','2','0']⟩
      = .ok (some ((digitsToNat ['1','2','0'] : ℚ))) := rfl
  _ = .ok (some 120) := by rw [e1]

/-- Shared evaluation: a run whose probe yields a positive duration, whose
loop sees no interrupt, and whose ffmpeg exits 0 reports success with exactly
one encoder start and the final full-bar render. -/
theorem run_on_success (env : Env) (total : ℚ)
    (hp : get_video_duration env.probe = .ok (some total))
    (hpos : 0 < total) (hint : env.interruptAfter = none)
    (hexit : env.ffmpegExit = 0) :
    run_ffmpeg_with_progress env =
      .ok ⟨1, (draw_progress total
          (env.stderrLines.foldl (processLine total) ⟨0, []⟩) total).renders,
        Report.success, none⟩ := by
  simp only [run_ffmpeg_with_progress, hp, hint]
  rw [if_neg (not_le.mpr hpos), if_pos hexit]

/-- Witness for C10: a successful run over duration 120 makes the final
full-bar render with total 120, which is positive and non-zero. -/
theorem renderer_total_pos_witness :
    0 < (Render.mk 120 120).total ∧ (Render.mk 120 120).total ≠ 0 :=
  renderer_total_pos ⟨⟨0, ['1','2','0']⟩, [], 0, none⟩
    ⟨1, [⟨120, 120⟩], Report.success, none⟩
    ((run_on_success ⟨⟨0, ['1','2','0']⟩, [], 0, none⟩ 120 probe120
      (by norm_num) rfl rfl).trans rfl)
    ⟨120, 120⟩ (by simp)

/-- Shared evaluation: a run whose probe yields a positive duration, whose
loop sees no interrupt, and whose ffmpeg exits non-zero reports failure with
exactly one encoder start and no `sys.exit`. -/
theorem run_on_failure (env : Env) (total : ℚ)
    (hp : get_video_duration env.probe = .ok (some total))
    (hpos : 0 < total) (hint : env.interruptAfter = none)
    (hexit : ¬ env.ffmpegExit = 0) :
    run_ffmpeg_with_progress env =
      .ok ⟨1, (draw_progress total
          (env.stderrLines.foldl (processLine total) ⟨0, []⟩) total).renders,
        Report.failure, none⟩ := by
  simp only [run_ffmpeg_with_progress, hp, hint]
  rw [if_neg (not_le.mpr hpos), if_neg hexit]

/-- C1 (amended) — when the encoder exits non-zero with no interrupt, the
run reports failure, starts the encoder exactly once (no retry) and raises
no `sys.exit`; `main` then returns normally, so the process exit status is 0.
The claim's "the program's own exit status is non-zero" does not hold: the
failure is signalled only by the printed message. -/
theorem failure_reported_no_retry (env : Env) (total : ℚ)
    (hp : get_video_duration env.probe = .ok (some total))
    (hpos : 0 < total) (hint : env.interruptAfter = none)
    (hexit : ¬ env.ffmpegExit = 0) :
    ∃ r : RunResult, run_ffmpeg_with_progress env = .ok r ∧
      r.report = Report.failure ∧ r.encoderStarts = 1 ∧ r.sysExit = none ∧
      programEnd env = .exited 0 := by
  refine ⟨_, run_on_failure env total hp hpos hint hexit, rfl, rfl, rfl, ?_⟩
  unfold programEnd
  rw [run_on_failure env total hp hpos hint hexit]

/-- Environment of the C1 scenario: probe succeeds with duration 120, ffmpeg
writes no stderr lines and exits with status 2, no interrupt. -/
def envFail : Env := ⟨⟨0, ['1','2','0']⟩, [], 2, none⟩

/-- Witness for C1 (amended) at `envFail`. -/
theorem failure_reported_no_retry_witness :
    ∃ r : RunResult, run_ffmpeg_with_progress envFail = .ok r ∧
      r.report = Report.failure ∧ r.encoderStarts = 1 ∧ r.sysExit = none ∧
      programEnd envFail = .exited 0 :=
  failure_reported_no_retry envFail 120 probe120 (by norm_num) rfl (by decide)

/-- C1 counterexample — in that same scenario (encoder exit status 2, no
interrupt) the run reports failure and never retries, but the process ends
with exit status 0, refuting the claim's non-zero exit status. -/
theorem failure_exit_status_counterexample :
    run_ffmpeg_with_progress envFail
      = .ok ⟨1, [⟨120, 120⟩], Report.failure, none⟩ ∧
    programEnd envFail = .exited 0 := by
  have h := run_on_failure envFail 120 probe120 (by norm_num) rfl (by decide)
  exact ⟨h, by unfold programEnd; rw [h]⟩

/-- C9 counterexample — the empty entry is neither the cancel token nor
non-empty, yet the output-path prompt accepts it as the output path (the
loop body ends in an unconditional `break`). -/
theorem output_prompt_counterexample :
    pyLower (pyStrip []) ≠ cancelToken ∧ output_prompt [] = .accepted [] := by
  exact ⟨by decide, rfl⟩

/-- C9 (amended) — the output-path prompt accepts the case-insensitive cancel
token, exiting cleanly with status 0, and accepts any other entry — including
the empty string — as the output path with no validation at all. -/
theorem output_prompt_amended (entry : Str) :
    (pyLower (pyStrip entry) = cancelToken → output_prompt entry = .cancelExit 0) ∧
    (pyLower (pyStrip entry) ≠ cancelToken →
      output_prompt entry = .accepted (pyStrip entry)) := by
  unfold output_prompt
  constructor
  · intro h; rw [if_pos h]
  · intro h; rw [if_neg h]

/-- Witness for C9 (amended): the entry `out` is accepted unchanged, and the
entry `CANCEL` exits with status 0. -/
theorem output_prompt_amended_witness :
    output_prompt ['o','u','t'] = .accepted ['o','u','t'] ∧
    output_prompt ['C','A','N','C','E','L'] = .cancelExit 0 :=
  ⟨(output_prompt_amended ['o','u','t']).2 (by decide),
   (output_prompt_amended ['C','A','N','C','E','L']).1 (by decide)⟩

end Convert
